import Mathlib

/-!
# Verification of the inventory purchase transaction engine

Shallow embedding of the purchase pipeline of the inventory API
(`src/routes/purchases.js`, `src/models/Purchase.js`, `src/models/Product.js`,
`src/utils/validationSchemas.js`).

Modelling conventions:
* The database is a pure value (`DB`): lists of product, purchase and
  purchase-detail rows.  A Sequelize transaction is modelled by building the
  post-state functionally; `rollback` returns the pre-state unchanged and
  `commit` returns the accumulated post-state.
* JavaScript numbers appearing as JSON input are modelled as `ℚ` (so the
  Joi `integer()` checks are expressible); validated ids and quantities are
  `Int`; money amounts (`DECIMAL(_,2)` columns, i.e. fixed-point values with
  two decimal places) are modelled exactly as an integer number of cents
  (`0.01` is `1`).  The binary floating-point rounding of
  `parseFloat`/`toFixed` is *not* modelled.
* The outputs of `Date.now()` and `Math.random()` are passed in as explicit
  parameters (a timestamp, and a stream of already-generated candidate
  invoice strings for the retry loop).
* Every store query/write performed inside the transaction is recorded as a
  `StoreEvent`, in execution order, so that "reaches the transactional
  work" is observable.
-/

/-- A row of the `products` table (`src/models/Product.js`). -/
structure Product where
  id : Int
  numero_lote : String
  nombre : String
  precio : Int
  cantidad_disponible : Int
  activo : Bool
deriving DecidableEq

/-- A raw cart item as it arrives in the JSON request body
(`req.body.productos[i]`); fields are arbitrary JSON numbers. -/
structure RawItem where
  product_id : ℚ
  cantidad : ℚ
deriving DecidableEq

/-- A cart item after Joi validation: integral id and quantity. -/
structure Item where
  product_id : Int
  cantidad : Int
deriving DecidableEq

/-- A row of the `purchases` table (`src/models/Purchase.js`). -/
structure PurchaseRec where
  id : Int
  user_id : Int
  total : Int
  numero_factura : String
  estado : String
deriving DecidableEq

/-- A row of the `purchase_details` table (`src/models/Purchase.js`,
`PurchaseDetail`). -/
structure DetailRec where
  purchase_id : Int
  product_id : Int
  cantidad : Int
  precio_unitario : Int
  subtotal : Int
deriving DecidableEq

/-- The in-flight `detalles` entry built in step 2 of the POST handler
(`src/routes/purchases.js`): priced line plus the locked product row it was
priced from. -/
structure Detalle where
  product_id : Int
  cantidad : Int
  precio_unitario : Int
  subtotal : Int
  product : Product
deriving DecidableEq

/-- The persistent store: products, purchase headers, purchase lines. -/
structure DB where
  products : List Product
  purchases : List PurchaseRec
  details : List DetailRec
deriving DecidableEq

/-- One store access performed under the transaction, in execution order. -/
inductive StoreEvent where
  | lockQuery (ids : List Int)
  | invoiceLookup (numeroFactura : String)
  | insertPurchase (id : Int)
  | insertDetail (purchaseId : Int) (productId : Int)
  | updateStock (productId : Int) (newQty : Int)
deriving DecidableEq

/-- The typed outcome of the POST /api/purchases handler. -/
inductive PurchaseResult where
  | success (purchaseId : Int) (numeroFactura : String) (total : Int)
  | validationError
  | productsNotFound (missing : List Int)
  | insufficientStock (nombre : String) (disponible : Int) (solicitado : Int)
  | sequencingExhausted
  | fatalError
deriving DecidableEq

/-- Whether a result is the success outcome. -/
def PurchaseResult.isSuccess : PurchaseResult → Bool
  | .success _ _ _ => true
  | _ => false

/-- JavaScript `String.prototype.padStart(3, '0')`. -/
def padStart3 (s : String) : String :=
  if s.length < 3 then String.mk (List.replicate (3 - s.length) '0') ++ s else s

/-- `generateInvoiceNumber` (`src/models/Purchase.js` lines 7-11):
`FAC-${Date.now()}-${Math.floor(Math.random()*1000).padStart(3,'0')}`.
The millisecond timestamp and the draw `Math.floor(Math.random()*1000)`
(a value in `0..999`, hence `Fin 1000`) are explicit inputs. -/
def generateInvoiceNumber (timestamp : Nat) (rand : Fin 1000) : String :=
  "FAC-" ++ Nat.repr timestamp ++ "-" ++ padStart3 (Nat.repr rand.val)

/-- `Purchase.beforeCreate` hook: regenerate the invoice number only when the
field is falsy (empty).  `fresh` stands for the `generateInvoiceNumber()`
call the hook would make. -/
def purchaseBeforeCreateHook (fresh : String) (p : PurchaseRec) : PurchaseRec :=
  if p.numero_factura = "" then { p with numero_factura := fresh } else p

/-- The test `nf.trim() === ''` of the `beforeSave` hook: a string trims to
the empty string exactly when every character is whitespace. -/
def trimsToEmpty (s : String) : Bool :=
  s.data.all (fun c => c.isWhitespace)

/-- `Purchase.beforeSave` hook: regenerate only when the field is falsy or
all-whitespace (`!nf || nf.trim() === ''`). -/
def purchaseBeforeSaveHook (fresh : String) (p : PurchaseRec) : PurchaseRec :=
  if p.numero_factura = "" ∨ trimsToEmpty p.numero_factura then
    { p with numero_factura := fresh }
  else p

/-- `PurchaseDetail.beforeCreate` hook: recompute
`subtotal = cantidad * precio_unitario`. -/
def detailBeforeCreate (d : DetailRec) : DetailRec :=
  { d with subtotal := d.cantidad * d.precio_unitario }

/-- Joi `purchaseItemSchema`: `product_id` a positive integer, `cantidad` an
integer `≥ 1` (`src/utils/validationSchemas.js` lines 134-153). -/
def purchaseItemValidate (r : RawItem) : Option Item :=
  if r.product_id.den = 1 ∧ 0 < r.product_id ∧ r.cantidad.den = 1 ∧ 1 ≤ r.cantidad then
    some { product_id := r.product_id.num, cantidad := r.cantidad.num }
  else none

/-- Validate every item of the `productos` array. -/
def validateItems : List RawItem → Option (List Item)
  | [] => some []
  | r :: rs =>
    match purchaseItemValidate r, validateItems rs with
    | some it, some its => some (it :: its)
    | _, _ => none

/-- Joi `purchaseSchema`: `productos` must be a list of valid items with at
least one entry (`src/utils/validationSchemas.js` lines 156-165). -/
def purchaseSchemaValidate (body : List RawItem) : Option (List Item) :=
  if body.length < 1 then none else validateItems body

/-- `productos.map(item => item.product_id)` (`src/routes/purchases.js`
line 44). -/
def productIdsOf (items : List Item) : List Int :=
  items.map (·.product_id)

/-- Step 1 locking query: `Product.findAll({ where: { id: {[Op.in]: ids},
activo: true }, lock: true })`.  Note the ids are passed in cart order and
the query carries no ORDER BY. -/
def availableProductsOf (db : DB) (ids : List Int) : List Product :=
  db.products.filter (fun p => decide (p.id ∈ ids) && p.activo)

/-- The `missingIds` computed when the length check fails
(`src/routes/purchases.js` lines 57-58). -/
def missingIdsOf (ids : List Int) (avail : List Product) : List Int :=
  ids.filter (fun i => decide (i ∉ avail.map (·.id)))

/-- Pricing-loop failure (step 2 of the handler). -/
inductive PriceError where
  | insufficient (nombre : String) (disponible : Int) (solicitado : Int)
  | missingProduct
deriving DecidableEq

/-- Step 2 of the handler (`src/routes/purchases.js` lines 71-95): walk the
cart in order, match each line to its locked product, fail on the first line
with `cantidad_disponible < cantidad`, otherwise snapshot the price and
compute `subtotal = precio * cantidad`.  The `find` coming back empty (never
after the length check with unique ids) lands in the generic catch. -/
def priceItems (avail : List Product) : List Item → Except PriceError (List Detalle)
  | [] => .ok []
  | it :: rest =>
    match avail.find? (fun p => p.id == it.product_id) with
    | none => .error .missingProduct
    | some product =>
      if product.cantidad_disponible < it.cantidad then
        .error (.insufficient product.nombre product.cantidad_disponible it.cantidad)
      else
        match priceItems avail rest with
        | .error e => .error e
        | .ok ds =>
          .ok ({ product_id := product.id, cantidad := it.cantidad,
                 precio_unitario := product.precio,
                 subtotal := product.precio * it.cantidad,
                 product := product } :: ds)

/-- `total` accumulation (`total += subtotal`). -/
def totalOf (ds : List Detalle) : Int :=
  ds.foldl (fun t d => t + d.subtotal) 0

/-- `Purchase.findOne({ where: { numero_factura } })` inside the invoice
loop, as a boolean collision test. -/
def invoiceExists (db : DB) (nf : String) : Bool :=
  (db.purchases.find? (fun p => p.numero_factura == nf)).isSome

/-- Step 3 invoice retry loop (`src/routes/purchases.js` lines 100-126).
`gen k` is the candidate produced by the `k`-th `generateInvoiceNumber()`
call (`k` equals the `attempts` counter at generation time), `fuel` is
`maxAttempts - attempts`.  Returns the verified-unique candidate (if any)
and the list of candidates generated, in order. -/
def invoiceLoop (gen : Nat → String) (existsInv : String → Bool) :
    Nat → Nat → Option String × List String
  | _, 0 => (none, [])
  | attempts, fuel + 1 =>
    let nf := gen attempts
    if existsInv nf then
      let r := invoiceLoop gen existsInv (attempts + 1) fuel
      (r.1, nf :: r.2)
    else
      (some nf, [nf])

/-- Auto-increment id for a new purchase row. -/
def nextPurchaseId (db : DB) : Int :=
  db.purchases.foldl (fun m p => max m p.id) 0 + 1

/-- The purchase-header row built in step 4 (`Purchase.create`), after the
`beforeCreate` and `beforeSave` hooks have run. -/
def mkPurchaseRec (hookFresh : String) (pid uid : Int) (total : Int) (nf : String) :
    PurchaseRec :=
  purchaseBeforeSaveHook hookFresh (purchaseBeforeCreateHook hookFresh
    { id := pid, user_id := uid, total := total, numero_factura := nf,
      estado := "completada" })

/-- A `purchase_details` row built in step 5 (`PurchaseDetail.create`,
running its `beforeCreate` hook). -/
def mkDetailRec (pid : Int) (d : Detalle) : DetailRec :=
  detailBeforeCreate
    { purchase_id := pid, product_id := d.product_id, cantidad := d.cantidad,
      precio_unitario := d.precio_unitario, subtotal := d.subtotal }

/-- The `stockUpdates` list of step 5: for each detalle,
`(product.id, product.cantidad_disponible - cantidad)` computed from the
product row as read at lock time. -/
def stockUpdatesOf (ds : List Detalle) : List (Int × Int) :=
  ds.map (fun d => (d.product.id, d.product.cantidad_disponible - d.cantidad))

/-- The `Product.update({cantidad_disponible}, {where: {id}})` loop of
step 5, applied to the products table. -/
def applyStockUpdates (ps : List Product) (ups : List (Int × Int)) : List Product :=
  ups.foldl
    (fun acc u =>
      acc.map (fun p => if p.id = u.1 then { p with cantidad_disponible := u.2 } else p))
    ps

/-- Sequelize model validation on `Purchase.total` (`DECIMAL`, `min: 0.01`,
i.e. one cent) and on `PurchaseDetail.precio_unitario` (`min: 0.01`); a
violation raises `SequelizeValidationError`, mapped to the 400 validation
response by the catch block. -/
def modelValidationOk (purchase : PurchaseRec) (ds : List Detalle) : Bool :=
  decide (1 ≤ purchase.total) && ds.all (fun d => decide (1 ≤ d.precio_unitario))

/-- The POST /api/purchases handler (`src/routes/purchases.js` lines
18-261): validate, lock products, check existence, check stock and price,
sequence the invoice number, write the header, the lines and the stock
updates, then commit; every failure path rolls the transaction back
(returning the pre-state).  Returns the typed result, the persisted
post-state, and the store accesses made under the transaction. -/
def createPurchase (userId : Int) (body : List RawItem) (gen : Nat → String)
    (hookFresh : String) (db : DB) : PurchaseResult × DB × List StoreEvent :=
  match purchaseSchemaValidate body with
  | none => (.validationError, db, [])
  | some productos =>
    let productIds := productIdsOf productos
    let availableProducts := availableProductsOf db productIds
    let ev0 := [StoreEvent.lockQuery productIds]
    if availableProducts.length ≠ productIds.length then
      (.productsNotFound (missingIdsOf productIds availableProducts), db, ev0)
    else
      match priceItems availableProducts productos with
      | .error (.insufficient nom disp sol) =>
        (.insufficientStock nom disp sol, db, ev0)
      | .error .missingProduct => (.fatalError, db, ev0)
      | .ok detalles =>
        let total := totalOf detalles
        let loopOut := invoiceLoop gen (invoiceExists db) 0 5
        let ev1 := ev0 ++ loopOut.2.map StoreEvent.invoiceLookup
        match loopOut.1 with
        | none => (.sequencingExhausted, db, ev1)
        | some nf =>
          let pid := nextPurchaseId db
          let purchase := mkPurchaseRec hookFresh pid userId total nf
          if modelValidationOk purchase detalles then
            let newDetails := detalles.map (mkDetailRec pid)
            let stockUpdates := stockUpdatesOf detalles
            let newProducts := applyStockUpdates db.products stockUpdates
            let ev2 := ev1 ++ [StoreEvent.insertPurchase pid]
              ++ newDetails.map (fun d => StoreEvent.insertDetail pid d.product_id)
              ++ stockUpdates.map (fun u => StoreEvent.updateStock u.1 u.2)
            (.success pid purchase.numero_factura purchase.total,
             { products := newProducts,
               purchases := db.purchases ++ [purchase],
               details := db.details ++ newDetails },
             ev2)
          else
            (.validationError, db, ev1 ++ [StoreEvent.insertPurchase pid])

/-- GET /api/purchases/:id (`src/routes/purchases.js` lines 398-457):
`whereConditions = { id }`, plus `user_id` when the requester's role is
`cliente`; `findOne` over the purchase store. -/
def getPurchaseById (role : String) (uid pid : Int) (db : DB) : Option PurchaseRec :=
  if role = "cliente" then
    db.purchases.find? (fun p => p.id == pid && p.user_id == uid)
  else
    db.purchases.find? (fun p => p.id == pid)

/-- GET /api/purchases (`src/routes/purchases.js` lines 266-337): the
`where` clause restricts to the requester's own rows when the role is
`cliente`; then pagination (`limit`, `offset`) is applied.  (The
`created_at DESC` ordering is not modelled; rows keep store order.) -/
def listPurchases (role : String) (uid : Int) (page limit : Nat) (db : DB) :
    List PurchaseRec :=
  let filtered :=
    if role = "cliente" then db.purchases.filter (fun p => p.user_id == uid)
    else db.purchases
  (filtered.drop ((page - 1) * limit)).take limit

/-! ## Concrete fixtures for the evaluation theorems and witnesses -/

/-- A concrete active product: id 1, price 10.00 (1000 cents), stock 5. -/
def prodA : Product := ⟨1, "L-001", "A", 1000, 5, true⟩

/-- A concrete active product: id 2, price 5.00 (500 cents), stock 5. -/
def prodB : Product := ⟨2, "L-002", "B", 500, 5, true⟩

/-- A store holding the two products and no purchases. -/
def dbAB : DB := ⟨[prodA, prodB], [], []⟩

/-- A candidate stream whose every draw is the same fresh invoice number. -/
def constGen : Nat → String := fun _ => "FAC-1-000"

/-! ## Generic list lemmas -/

/-- `find?` only depends on the predicate's values on the list members. -/
theorem find?_congr_mem {α : Type} (l : List α) (p q : α → Bool)
    (h : ∀ a ∈ l, p a = q a) : l.find? p = l.find? q := by
  induction l with
  | nil => rfl
  | cons a t ih =>
    simp only [List.find?]
    rw [h a (List.mem_cons_self a t)]
    cases q a
    · exact ih (fun b hb => h b (List.mem_cons_of_mem a hb))
    · rfl

/-- Searching a filtered list is searching with the conjoined predicate. -/
theorem find?_filter_comm {α : Type} (l : List α) (p q : α → Bool) :
    (l.filter q).find? p = l.find? (fun a => q a && p a) := by
  induction l with
  | nil => rfl
  | cons a t ih =>
    cases hq : q a with
    | true =>
      simp only [List.filter, hq, List.find?]
      cases hp : p a
      · simp [hp, ih]
      · simp [hp]
    | false =>
      simp only [List.filter, hq, List.find?]
      simp [ih]

/-- In a list with no duplicate keys, `find?` by a member's key returns that
member. -/
theorem find?_of_mem_nodupKeys {α β : Type} [BEq β] [LawfulBEq β] (key : α → β) :
    ∀ (l : List α) (a : α), (l.map key).Nodup → a ∈ l →
      l.find? (fun b => key b == key a) = some a := by
  intro l
  induction l with
  | nil => intro a _ ha; cases ha
  | cons b t ih =>
    intro a hnd ha
    simp only [List.map, List.nodup_cons] at hnd
    rcases List.mem_cons.mp ha with rfl | hat
    · simp [List.find?]
    · have hne : key b ≠ key a := by
        intro hk
        exact hnd.1 (hk ▸ List.mem_map_of_mem key hat)
      simp only [List.find?]
      rw [show (key b == key a) = false from beq_eq_false_iff_ne.mpr hne]
      exact ih a hnd.2 hat

/-- In a list with no duplicate keys, two members with equal keys are equal. -/
theorem eq_of_mem_nodupKeys {α β : Type} [BEq β] [LawfulBEq β] (key : α → β) :
    ∀ (l : List α) (a b : α), (l.map key).Nodup → a ∈ l → b ∈ l →
      key a = key b → a = b := by
  intro l
  induction l with
  | nil => intro a b _ ha; cases ha
  | cons c t ih =>
    intro a b hnd ha hb hk
    simp only [List.map, List.nodup_cons] at hnd
    rcases List.mem_cons.mp ha with rfl | hat
    · rcases List.mem_cons.mp hb with rfl | hbt
      · rfl
      · exact absurd (hk ▸ List.mem_map_of_mem key hbt) hnd.1
    · rcases List.mem_cons.mp hb with rfl | hbt
      · exact absurd (hk ▸ List.mem_map_of_mem key hat) hnd.1
      · exact ih a b hnd.2 hat hbt hk

/-! ## Validation lemmas -/

/-- A validated item has a positive id and a quantity of at least 1. -/
theorem purchaseItemValidate_bounds (r : RawItem) (it : Item)
    (h : purchaseItemValidate r = some it) :
    0 < it.product_id ∧ 1 ≤ it.cantidad := by
  unfold purchaseItemValidate at h
  split at h
  · rename_i hc
    obtain ⟨hd1, hp, hd2, hq⟩ := hc
    cases h
    constructor
    · exact_mod_cast Rat.num_pos.mpr hp
    · have : (1 : ℚ) ≤ (r.cantidad.num : ℚ) := by
        rwa [(Rat.den_eq_one_iff r.cantidad).mp hd2]
      exact_mod_cast this
  · cases h

/-- Every item of a successfully validated list is in bounds. -/
theorem validateItems_bounds :
    ∀ (body : List RawItem) (items : List Item), validateItems body = some items →
      ∀ it ∈ items, 0 < it.product_id ∧ 1 ≤ it.cantidad := by
  intro body
  induction body with
  | nil => intro items h it hit; cases h; cases hit
  | cons r rs ih =>
    intro items h it hit
    unfold validateItems at h
    cases hr : purchaseItemValidate r with
    | none => rw [hr] at h; cases h
    | some a =>
      rw [hr] at h
      cases hrs : validateItems rs with
      | none => rw [hrs] at h; cases h
      | some as =>
        rw [hrs] at h
        cases h
        rcases List.mem_cons.mp hit with rfl | hmem
        · exact purchaseItemValidate_bounds r it hr
        · exact ih as hrs it hmem

/-- Validation preserves the cart length. -/
theorem validateItems_length :
    ∀ (body : List RawItem) (items : List Item), validateItems body = some items →
      items.length = body.length := by
  intro body
  induction body with
  | nil => intro items h; cases h; rfl
  | cons r rs ih =>
    intro items h
    unfold validateItems at h
    cases hr : purchaseItemValidate r with
    | none => rw [hr] at h; cases h
    | some a =>
      rw [hr] at h
      cases hrs : validateItems rs with
      | none => rw [hrs] at h; cases h
      | some as =>
        rw [hrs] at h
        cases h
        simpa using ih as hrs

/-- A schema-validated cart is non-empty and in bounds. -/
theorem purchaseSchemaValidate_spec (body : List RawItem) (items : List Item)
    (h : purchaseSchemaValidate body = some items) :
    validateItems body = some items ∧ items ≠ [] := by
  unfold purchaseSchemaValidate at h
  split at h
  · cases h
  · rename_i hlen
    refine ⟨h, ?_⟩
    intro hnil
    have := validateItems_length body items h
    rw [hnil] at this
    simp at this
    omega

/-! ## Invoice-loop lemmas -/

/-- The loop never generates more candidates than its remaining fuel. -/
theorem invoiceLoop_length_le (gen : Nat → String) (ex : String → Bool) :
    ∀ (fuel attempts : Nat), ((invoiceLoop gen ex attempts fuel).2).length ≤ fuel := by
  intro fuel
  induction fuel with
  | zero => intro a; simp [invoiceLoop]
  | succ f ih =>
    intro a
    simp only [invoiceLoop]
    cases hx : ex (gen a)
    · simp
    · simpa using ih (a + 1)

/-- If every candidate the loop can draw collides, it consumes all its fuel
and reports no invoice number. -/
theorem invoiceLoop_all_collide (gen : Nat → String) (ex : String → Bool) :
    ∀ (fuel attempts : Nat), (∀ k, k < fuel → ex (gen (attempts + k)) = true) →
      invoiceLoop gen ex attempts fuel
        = (none, (List.range fuel).map (fun k => gen (attempts + k))) := by
  intro fuel
  induction fuel with
  | zero => intro a _; simp [invoiceLoop]
  | succ f ih =>
    intro a h
    have h0 : ex (gen a) = true := by simpa using h 0 (Nat.succ_pos f)
    have hrec := ih (a + 1) (fun k hk => by
      have := h (k + 1) (Nat.succ_lt_succ hk)
      simpa [Nat.add_assoc, Nat.add_comm 1 k] using this)
    have hmap : (List.range (f + 1)).map (fun k => gen (a + k))
        = gen a :: (List.range f).map (fun k => gen (a + 1 + k)) := by
      rw [List.range_succ_eq_map, List.map_cons, List.map_map]
      simp only [Nat.add_zero]
      congr 1
      apply List.map_congr_left
      intro k _
      simp only [Function.comp_apply]
      congr 1
      omega
    simp only [invoiceLoop]
    rw [h0, if_pos rfl, hrec, hmap]

/-- A candidate returned by the loop was verified fresh, and was one of the
first `fuel` draws. -/
theorem invoiceLoop_some_spec (gen : Nat → String) (ex : String → Bool) :
    ∀ (fuel attempts : Nat) (nf : String) (tried : List String),
      invoiceLoop gen ex attempts fuel = (some nf, tried) →
      ex nf = false ∧ ∃ k, k < fuel ∧ nf = gen (attempts + k) := by
  intro fuel
  induction fuel with
  | zero => intro a nf tried h; simp [invoiceLoop] at h
  | succ f ih =>
    intro a nf tried h
    simp only [invoiceLoop] at h
    cases hx : ex (gen a) with
    | true =>
      rw [hx, if_pos rfl] at h
      rcases hl : invoiceLoop gen ex (a + 1) f with ⟨o, t⟩
      rw [hl] at h
      rw [Prod.mk.injEq] at h
      obtain ⟨h1, h2⟩ := h
      subst h1
      obtain ⟨he, k, hk, hnf⟩ := ih (a + 1) nf t hl
      refine ⟨he, k + 1, Nat.succ_lt_succ hk, ?_⟩
      rw [hnf]
      congr 1
      omega
    | false =>
      rw [hx, if_neg Bool.false_ne_true] at h
      rw [Prod.mk.injEq] at h
      obtain ⟨h1, h2⟩ := h
      injection h1 with h1
      subst h1
      exact ⟨hx, 0, Nat.succ_pos f, by simp⟩

/-! ## Pricing and stock-update lemmas -/

/-- The running `total +=` accumulation equals the sum of the subtotals. -/
theorem totalOf_eq_sum (ds : List Detalle) :
    totalOf ds = (ds.map (fun d => d.subtotal)).sum := by
  have key : ∀ (l : List Detalle) (a : Int),
      l.foldl (fun t d => t + d.subtotal) a = a + (l.map (fun d => d.subtotal)).sum := by
    intro l
    induction l with
    | nil => intro a; simp
    | cons d t ih =>
      intro a
      simp only [List.foldl, List.map, List.sum_cons]
      rw [ih (a + d.subtotal)]
      ring
  simpa using key ds 0

/-- The fallback product used to express the handler's `find` lookup as a
total function. -/
def noProduct : Product := ⟨0, "", "", 0, 0, false⟩

/-- The product row the pricing loop associates to a cart line:
`availableProducts.find(p => p.id === item.product_id)`. -/
def lookedUpProduct (avail : List Product) (it : Item) : Product :=
  (avail.find? (fun p => p.id == it.product_id)).getD noProduct

/-- The detalle the pricing loop pushes for a cart line. -/
def detalleOf (avail : List Product) (it : Item) : Detalle :=
  { product_id := (lookedUpProduct avail it).id, cantidad := it.cantidad,
    precio_unitario := (lookedUpProduct avail it).precio,
    subtotal := (lookedUpProduct avail it).precio * it.cantidad,
    product := lookedUpProduct avail it }

/-- When every cart line finds its product and has sufficient stock, the
pricing loop succeeds and produces exactly one detalle per line. -/
theorem priceItems_ok (avail : List Product) :
    ∀ (items : List Item),
      (∀ it ∈ items, (avail.find? (fun p => p.id == it.product_id)).isSome = true) →
      (∀ it ∈ items, ¬ ((lookedUpProduct avail it).cantidad_disponible < it.cantidad)) →
      priceItems avail items = .ok (items.map (detalleOf avail)) := by
  intro items
  induction items with
  | nil => intro _ _; rfl
  | cons it rest ih =>
    intro hfind hstock
    have hf := hfind it (List.mem_cons_self it rest)
    cases hp : avail.find? (fun p => p.id == it.product_id) with
    | none => rw [hp] at hf; cases hf
    | some product =>
      have hlook : lookedUpProduct avail it = product := by
        simp [lookedUpProduct, hp]
      have hs := hstock it (List.mem_cons_self it rest)
      rw [hlook] at hs
      simp only [priceItems, hp, if_neg hs]
      rw [ih (fun x hx => hfind x (List.mem_cons_of_mem it hx))
            (fun x hx => hstock x (List.mem_cons_of_mem it hx))]
      simp [detalleOf, hlook]

/-- The first cart line with insufficient stock aborts the pricing loop with
exactly that line's product data. -/
theorem priceItems_insufficient (avail : List Product) :
    ∀ (items : List Item) (k : Nat) (it : Item),
      items.get? k = some it →
      (avail.find? (fun p => p.id == it.product_id)).isSome = true →
      (lookedUpProduct avail it).cantidad_disponible < it.cantidad →
      (∀ j, j < k → ∀ itj, items.get? j = some itj →
        (avail.find? (fun p => p.id == itj.product_id)).isSome = true ∧
        ¬ ((lookedUpProduct avail itj).cantidad_disponible < itj.cantidad)) →
      priceItems avail items
        = .error (.insufficient (lookedUpProduct avail it).nombre
            (lookedUpProduct avail it).cantidad_disponible it.cantidad) := by
  intro items
  induction items with
  | nil => intro k it hk; cases k <;> simp at hk
  | cons hd rest ih =>
    intro k it hk hfind hins hbefore
    cases k with
    | zero =>
      simp only [List.get?] at hk
      injection hk with hk
      subst hk
      cases hp : avail.find? (fun p => p.id == hd.product_id) with
      | none => rw [hp] at hfind; cases hfind
      | some product =>
        have hlook : lookedUpProduct avail hd = product := by
          simp [lookedUpProduct, hp]
        rw [hlook] at hins
        simp [priceItems, hp, hins, hlook]
    | succ k =>
      simp only [List.get?] at hk
      have h0 := hbefore 0 (Nat.succ_pos k) hd rfl
      cases hp : avail.find? (fun p => p.id == hd.product_id) with
      | none => rw [hp] at h0; simp at h0
      | some product =>
        have hlook : lookedUpProduct avail hd = product := by
          simp [lookedUpProduct, hp]
        have hs := h0.2
        rw [hlook] at hs
        simp only [priceItems, hp, if_neg hs]
        rw [ih k it hk hfind hins
          (fun j hj itj hitj => hbefore (j + 1) (Nat.succ_lt_succ hj) itj hitj)]

/-- With pairwise-distinct update keys, the per-row update loop rewrites each
product according to the unique update that targets it. -/
theorem applyStockUpdates_eq :
    ∀ (ups : List (Int × Int)) (ps : List Product), (ups.map Prod.fst).Nodup →
      applyStockUpdates ps ups = ps.map (fun p =>
        match ups.find? (fun u => u.1 == p.id) with
        | some u => { p with cantidad_disponible := u.2 }
        | none => p) := by
  intro ups
  induction ups with
  | nil =>
    intro ps _
    simp [applyStockUpdates]
  | cons u t ih =>
    intro ps hnd
    simp only [List.map, List.nodup_cons] at hnd
    have step : applyStockUpdates ps (u :: t)
        = applyStockUpdates
            (ps.map (fun p => if p.id = u.1 then { p with cantidad_disponible := u.2 } else p)) t := by
      simp [applyStockUpdates]
    rw [step, ih _ hnd.2, List.map_map]
    apply List.map_congr_left
    intro p _
    simp only [Function.comp_apply]
    by_cases hid : p.id = u.1
    · rw [if_pos hid]
      have hnone : t.find? (fun v => v.1 == ({ p with cantidad_disponible := u.2 } : Product).id) = none := by
        apply List.find?_eq_none.2
        intro v hv hbe
        apply hnd.1
        have hv1 : v.1 = p.id := (beq_iff_eq ..).mp hbe
        have huv : u.1 = v.1 := by rw [hv1, hid]
        exact huv ▸ List.mem_map_of_mem Prod.fst hv
      have hsome : List.find? (fun v => v.1 == p.id) (u :: t) = some u :=
        List.find?_cons_of_pos _ ((beq_iff_eq ..).mpr hid.symm)
      rw [hnone, hsome]
    · rw [if_neg hid]
      have hcons : List.find? (fun v => v.1 == p.id) (u :: t) = List.find? (fun v => v.1 == p.id) t :=
        List.find?_cons_of_neg _ (by
          intro hbe
          exact hid ((beq_iff_eq ..).mp hbe).symm)
      rw [hcons]

/-! ## Locking-query lemmas -/

/-- Membership in the locking query's result set. -/
theorem mem_availableProductsOf (db : DB) (ids : List Int) (p : Product) :
    p ∈ availableProductsOf db ids ↔ p ∈ db.products ∧ p.id ∈ ids ∧ p.activo = true := by
  simp [availableProductsOf, List.mem_filter, and_assoc]

/-- If the store has duplicate-free product ids, so does the locked set. -/
theorem availableProductsOf_nodup_ids (db : DB) (ids : List Int)
    (h : (db.products.map (fun p => p.id)).Nodup) :
    ((availableProductsOf db ids).map (fun p => p.id)).Nodup :=
  List.Nodup.sublist ((List.filter_sublist _).map _) h

/-- When the cart's ids are duplicate-free and each names an active stored
product, the locking query returns exactly one row per cart id. -/
theorem availableProductsOf_length_eq (db : DB) (ids : List Int)
    (hids : ids.Nodup) (hdb : (db.products.map (fun p => p.id)).Nodup)
    (hex : ∀ i ∈ ids, ∃ p ∈ db.products, p.id = i ∧ p.activo = true) :
    (availableProductsOf db ids).length = ids.length := by
  have havn := availableProductsOf_nodup_ids db ids hdb
  have hsub1 : (availableProductsOf db ids).map (fun p => p.id) ⊆ ids := by
    intro x hx
    rcases List.mem_map.mp hx with ⟨p, hp, rfl⟩
    exact ((mem_availableProductsOf db ids p).mp hp).2.1
  have hsub2 : ids ⊆ (availableProductsOf db ids).map (fun p => p.id) := by
    intro x hx
    rcases hex x hx with ⟨p, hpmem, hpid, hact⟩
    refine List.mem_map.mpr ⟨p, ?_, hpid⟩
    refine (mem_availableProductsOf db ids p).mpr ⟨hpmem, ?_, hact⟩
    rw [hpid]
    exact hx
  have h1 := (List.Nodup.subperm havn hsub1).length_le
  have h2 := (List.Nodup.subperm hids hsub2).length_le
  rw [List.length_map] at h1 h2
  omega

/-- With duplicate cart ids and a duplicate-free store, the locking query
returns strictly fewer rows than cart ids. -/
theorem availableProductsOf_length_lt (db : DB) (ids : List Int)
    (hids : ¬ ids.Nodup) (hdb : (db.products.map (fun p => p.id)).Nodup) :
    (availableProductsOf db ids).length < ids.length := by
  have havn := availableProductsOf_nodup_ids db ids hdb
  have hsub : (availableProductsOf db ids).map (fun p => p.id) ⊆ ids.dedup := by
    intro x hx
    rcases List.mem_map.mp hx with ⟨p, hp, rfl⟩
    exact List.mem_dedup.mpr ((mem_availableProductsOf db ids p).mp hp).2.1
  have h1 := (List.Nodup.subperm havn hsub).length_le
  rw [List.length_map] at h1
  have hd : ids.dedup.length < ids.length := by
    rcases Nat.lt_or_ge ids.dedup.length ids.length with h | h
    · exact h
    · exfalso
      have hle := (List.dedup_sublist ids).length_le
      have heq : ids.dedup.length = ids.length := le_antisymm hle h
      have hdl := (List.dedup_sublist ids).eq_of_length heq
      exact hids (hdl ▸ ids.nodup_dedup)
  omega

/-! ## Master lemmas about the handler -/

/-- Success path of `createPurchase`: when validation, the existence check,
pricing, the invoice loop and the model validations all pass, the handler
commits exactly the computed header, lines and stock updates. -/
theorem createPurchase_success (uid : Int) (body : List RawItem) (gen : Nat → String)
    (hf : String) (db : DB) (items : List Item) (ds : List Detalle) (nf : String)
    (tried : List String)
    (hv : purchaseSchemaValidate body = some items)
    (hlen : (availableProductsOf db (productIdsOf items)).length = (productIdsOf items).length)
    (hp : priceItems (availableProductsOf db (productIdsOf items)) items = .ok ds)
    (hloop : invoiceLoop gen (invoiceExists db) 0 5 = (some nf, tried))
    (hok : modelValidationOk (mkPurchaseRec hf (nextPurchaseId db) uid (totalOf ds) nf) ds = true) :
    createPurchase uid body gen hf db =
      (.success (nextPurchaseId db)
         (mkPurchaseRec hf (nextPurchaseId db) uid (totalOf ds) nf).numero_factura
         (mkPurchaseRec hf (nextPurchaseId db) uid (totalOf ds) nf).total,
       { products := applyStockUpdates db.products (stockUpdatesOf ds),
         purchases := db.purchases ++ [mkPurchaseRec hf (nextPurchaseId db) uid (totalOf ds) nf],
         details := db.details ++ ds.map (mkDetailRec (nextPurchaseId db)) },
       [StoreEvent.lockQuery (productIdsOf items)] ++ tried.map StoreEvent.invoiceLookup
         ++ [StoreEvent.insertPurchase (nextPurchaseId db)]
         ++ (ds.map (mkDetailRec (nextPurchaseId db))).map
              (fun d => StoreEvent.insertDetail (nextPurchaseId db) d.product_id)
         ++ (stockUpdatesOf ds).map (fun u => StoreEvent.updateStock u.1 u.2)) := by
  simp only [createPurchase, hv]
  rw [hloop]
  simp only [hlen, ne_eq, not_true_eq_false, if_false, hp]
  rw [if_pos hok]

/-- C2: any failure of the purchase operation (validation error, missing or
inactive product, insufficient stock, sequencing exhaustion, or storage
error) leaves the persisted state exactly as it was before the attempt: no
product quantity changes and no purchase header or line is persisted. -/
theorem purchase_failure_rolls_back (uid : Int) (body : List RawItem)
    (gen : Nat → String) (hf : String) (db : DB) (res : PurchaseResult)
    (db' : DB) (tr : List StoreEvent)
    (hE : createPurchase uid body gen hf db = (res, db', tr))
    (h : res.isSuccess = false) : db' = db := by
  simp only [createPurchase] at hE
  split at hE
  · rw [Prod.mk.injEq, Prod.mk.injEq] at hE
    exact hE.2.1.symm
  · split at hE
    · rw [Prod.mk.injEq, Prod.mk.injEq] at hE
      exact hE.2.1.symm
    · split at hE
      · rw [Prod.mk.injEq, Prod.mk.injEq] at hE
        exact hE.2.1.symm
      · rw [Prod.mk.injEq, Prod.mk.injEq] at hE
        exact hE.2.1.symm
      · split at hE
        · rw [Prod.mk.injEq, Prod.mk.injEq] at hE
          exact hE.2.1.symm
        · split at hE
          · rw [Prod.mk.injEq, Prod.mk.injEq] at hE
            obtain ⟨h1, h2, h3⟩ := hE
            rw [← h1] at h
            simp [PurchaseResult.isSuccess] at h
          · rw [Prod.mk.injEq, Prod.mk.injEq] at hE
            exact hE.2.1.symm

/-- Witness for C2 at a concrete failing input: an empty cart fails
validation and the store is unchanged. -/
theorem purchase_failure_rolls_back_witness :
    (createPurchase 7 [] constGen "FAC-9-999" dbAB).2.1 = dbAB :=
  purchase_failure_rolls_back 7 [] constGen "FAC-9-999" dbAB
    (createPurchase 7 [] constGen "FAC-9-999" dbAB).1
    (createPurchase 7 [] constGen "FAC-9-999" dbAB).2.1
    (createPurchase 7 [] constGen "FAC-9-999" dbAB).2.2
    rfl (by decide)

/-! ## Claim theorems: invoice format, lock order, validation -/

set_option maxRecDepth 40000 in
/-- The padded random field of an invoice number is exactly three characters. -/
theorem padStart3_repr_length : ∀ r : Fin 1000, (padStart3 (Nat.repr r.val)).length = 3 := by
  decide

set_option maxRecDepth 40000 in
/-- The padded random field of an invoice number is all decimal digits. -/
theorem padStart3_repr_digits :
    ∀ r : Fin 1000, ((padStart3 (Nat.repr r.val)).data.all (fun c => c.isDigit)) = true := by
  decide

/-- C10: every invoice-number draw has the exact shape
`FAC-<millisecond timestamp>-<zero-padded 3-digit draw>`, the draw lies in
`0..999`, and for a fixed millisecond at most 1000 distinct invoice
identifiers are possible. -/
theorem invoice_number_format (ts : Nat) (r : Fin 1000) :
    generateInvoiceNumber ts r
        = "FAC-" ++ Nat.repr ts ++ "-" ++ padStart3 (Nat.repr r.val)
      ∧ (padStart3 (Nat.repr r.val)).length = 3
      ∧ ((padStart3 (Nat.repr r.val)).data.all (fun c => c.isDigit)) = true
      ∧ r.val ≤ 999
      ∧ (Finset.image (fun x : Fin 1000 => generateInvoiceNumber ts x) Finset.univ).card
          ≤ 1000 := by
  refine ⟨rfl, padStart3_repr_length r, padStart3_repr_digits r, ?_, ?_⟩
  · have := r.isLt
    omega
  · refine le_trans Finset.card_image_le ?_
    rw [Finset.card_univ, Fintype.card_fin]

/-- C8: the ids handed to the row-locking query follow the cart's order.
Two carts over the same two products in opposite orders present `[2, 1]`
and `[1, 2]` respectively, so the application layer does not establish the
ascending deterministic lock-acquisition order. -/
theorem lock_order_follows_cart_order :
    (createPurchase 7 [⟨2, 1⟩, ⟨1, 1⟩] constGen "FAC-9-999" dbAB).2.2.head?
        = some (.lockQuery [2, 1])
    ∧ (createPurchase 7 [⟨1, 1⟩, ⟨2, 1⟩] constGen "FAC-9-999" dbAB).2.2.head?
        = some (.lockQuery [1, 2])
    ∧ ¬ List.Sorted (fun a b => a ≤ b) [(2 : Int), 1] := by
  refine ⟨by decide, by decide, by decide⟩

/-- C7 counterexample: a cart with a duplicated product id passes the Joi
schema, reaches the transactional work (the locking query runs), and fails
with the products-not-found outcome, not with a validation error. -/
theorem duplicate_ids_reach_transaction :
    purchaseSchemaValidate [⟨1, 1⟩, ⟨1, 1⟩] = some [⟨1, 1⟩, ⟨1, 1⟩]
    ∧ (createPurchase 7 [⟨1, 1⟩, ⟨1, 1⟩] constGen "FAC-9-999" dbAB).1
        = .productsNotFound []
    ∧ (createPurchase 7 [⟨1, 1⟩, ⟨1, 1⟩] constGen "FAC-9-999" dbAB).1
        ≠ .validationError
    ∧ (createPurchase 7 [⟨1, 1⟩, ⟨1, 1⟩] constGen "FAC-9-999" dbAB).2.2
        = [.lockQuery [1, 1]] := by
  refine ⟨by decide, by decide, by decide, by decide⟩

/-- C7 (amended): carts the Joi schema rejects (empty list, non-integral or
non-positive quantity or id) fail with a validation error before any store
access under the transaction; a duplicated product id, however, passes the
schema, takes the locking query, and is rejected inside the transaction by
the products-found length check, rolled back with the state unchanged. -/
theorem malformed_cart_validation (uid : Int) (body : List RawItem)
    (gen : Nat → String) (hf : String) (db : DB) :
    (purchaseSchemaValidate body = none →
      createPurchase uid body gen hf db = (.validationError, db, []))
    ∧ (∀ items, purchaseSchemaValidate body = some items →
        ¬ (productIdsOf items).Nodup →
        (db.products.map (fun p => p.id)).Nodup →
        createPurchase uid body gen hf db
          = (.productsNotFound (missingIdsOf (productIdsOf items)
               (availableProductsOf db (productIdsOf items))), db,
             [.lockQuery (productIdsOf items)])) := by
  constructor
  · intro hv
    simp [createPurchase, hv]
  · intro items hv hdup hdb
    have hlt := availableProductsOf_length_lt db (productIdsOf items) hdup hdb
    simp only [createPurchase, hv]
    rw [if_pos (by omega)]

/-- Witness for the amended C7 at concrete inputs: the empty cart is
rejected before any store access, and the duplicated cart dies at the
length check inside the transaction. -/
theorem malformed_cart_validation_witness :
    createPurchase 7 [] constGen "FAC-9-999" dbAB = (.validationError, dbAB, [])
    ∧ createPurchase 7 [⟨1, 1⟩, ⟨1, 1⟩] constGen "FAC-9-999" dbAB
        = (.productsNotFound [], dbAB, [.lockQuery [1, 1]]) := by
  constructor
  · exact (malformed_cart_validation 7 [] constGen "FAC-9-999" dbAB).1 (by decide)
  · have h := (malformed_cart_validation 7 [⟨1, 1⟩, ⟨1, 1⟩] constGen "FAC-9-999" dbAB).2
      [⟨1, 1⟩, ⟨1, 1⟩] (by decide) (by decide) (by decide)
    exact h.trans (by decide)

/-! ## Claim theorems: invoice sequencing -/

/-- A candidate stream that always collides with `dbColl`. -/
def genColl : Nat → String := fun k => "C" ++ Nat.repr k

/-- A store whose purchases already carry the first five candidates of
`genColl`. -/
def dbColl : DB :=
  ⟨[prodA, prodB],
   [⟨1, 9, 100, "C0", "completada"⟩, ⟨2, 9, 100, "C1", "completada"⟩,
    ⟨3, 9, 100, "C2", "completada"⟩, ⟨4, 9, 100, "C3", "completada"⟩,
    ⟨5, 9, 100, "C4", "completada"⟩], []⟩

/-- C4: the invoice sequencer checks each freshly generated candidate
against the purchase store inside the transaction; it makes at most 5
generation attempts in total, a returned candidate was verified absent, and
when all 5 candidates collide the whole transaction fails with the
sequencing-exhausted outcome, rolled back to the pre-state. -/
theorem invoice_sequencer_bounded_retry (uid : Int) (body : List RawItem)
    (gen : Nat → String) (hf : String) (db : DB) (items : List Item) (ds : List Detalle)
    (hv : purchaseSchemaValidate body = some items)
    (hlen : (availableProductsOf db (productIdsOf items)).length = (productIdsOf items).length)
    (hp : priceItems (availableProductsOf db (productIdsOf items)) items = .ok ds)
    (hcol : ∀ k, k < 5 → invoiceExists db (gen k) = true) :
    createPurchase uid body gen hf db
      = (.sequencingExhausted, db,
         [StoreEvent.lockQuery (productIdsOf items)]
           ++ ((List.range 5).map gen).map StoreEvent.invoiceLookup)
    ∧ ((List.range 5).map gen).length = 5
    ∧ (∀ (gen' : Nat → String) (ex : String → Bool) (fuel attempts : Nat),
        ((invoiceLoop gen' ex attempts fuel).2).length ≤ fuel)
    ∧ (∀ (gen' : Nat → String) (ex : String → Bool) (nf : String) (tried : List String),
        invoiceLoop gen' ex 0 5 = (some nf, tried) → ex nf = false) := by
  have hl := invoiceLoop_all_collide gen (invoiceExists db) 5 0
    (fun k hk => by simpa using hcol k hk)
  have hmap : (List.range 5).map (fun k => gen (0 + k)) = (List.range 5).map gen :=
    List.map_congr_left (fun k _ => by simp)
  rw [hmap] at hl
  refine ⟨?_, by simp, invoiceLoop_length_le, ?_⟩
  · simp only [createPurchase, hv]
    rw [hl]
    simp only [hlen, ne_eq, not_true_eq_false, if_false, hp]
  · intro gen' ex nf tried h
    exact (invoiceLoop_some_spec gen' ex 5 0 nf tried h).1

/-- Witness for C4: with a store already holding the five candidates the
stream will draw, the purchase fails with the sequencing-exhausted outcome
after exactly five lookups, and the store is unchanged. -/
theorem invoice_sequencer_bounded_retry_witness :
    createPurchase 7 [⟨1, 2⟩, ⟨2, 1⟩] genColl "FAC-9-999" dbColl
      = (.sequencingExhausted, dbColl,
         [.lockQuery [1, 2], .invoiceLookup "C0", .invoiceLookup "C1",
          .invoiceLookup "C2", .invoiceLookup "C3", .invoiceLookup "C4"]) := by
  have h := (invoice_sequencer_bounded_retry 7 [⟨1, 2⟩, ⟨2, 1⟩] genColl "FAC-9-999" dbColl
    [⟨1, 2⟩, ⟨2, 1⟩] [⟨1, 2, 1000, 2000, prodA⟩, ⟨2, 1, 500, 500, prodB⟩]
    (by decide) (by decide) (by rfl) (by decide)).1
  exact h.trans (by decide)

/-! ## Claim theorems: insufficient stock -/

/-- C6: when the cart, walked in order, first reaches a line whose requested
quantity exceeds the locked product's available quantity, the whole purchase
fails with the insufficient-stock outcome carrying that product's data
(name, available quantity, requested quantity), the transaction is rolled
back with the state unchanged, and no line of the cart is fulfilled. -/
theorem first_insufficient_line_fails_all (uid : Int) (body : List RawItem)
    (gen : Nat → String) (hf : String) (db : DB) (items : List Item) (k : Nat) (it : Item)
    (hv : purchaseSchemaValidate body = some items)
    (hlen : (availableProductsOf db (productIdsOf items)).length = (productIdsOf items).length)
    (hk : items.get? k = some it)
    (hfind : ((availableProductsOf db (productIdsOf items)).find?
        (fun p => p.id == it.product_id)).isSome = true)
    (hins : (lookedUpProduct (availableProductsOf db (productIdsOf items)) it).cantidad_disponible
        < it.cantidad)
    (hbefore : ∀ j, j < k → ∀ itj, items.get? j = some itj →
        ((availableProductsOf db (productIdsOf items)).find?
            (fun p => p.id == itj.product_id)).isSome = true ∧
        ¬ ((lookedUpProduct (availableProductsOf db (productIdsOf items)) itj).cantidad_disponible
            < itj.cantidad)) :
    createPurchase uid body gen hf db
      = (.insufficientStock
           (lookedUpProduct (availableProductsOf db (productIdsOf items)) it).nombre
           (lookedUpProduct (availableProductsOf db (productIdsOf items)) it).cantidad_disponible
           it.cantidad,
         db, [.lockQuery (productIdsOf items)]) := by
  have hp := priceItems_insufficient (availableProductsOf db (productIdsOf items))
    items k it hk hfind hins hbefore
  simp only [createPurchase, hv]
  simp only [hlen, ne_eq, not_true_eq_false, if_false, hp]

/-- Witness for C6: requesting 10 of product B (stock 5) as the second cart
line fails with `InsufficientStock("B", 5, 10)`, leaves the store unchanged
and performs no write. -/
theorem first_insufficient_line_fails_all_witness :
    createPurchase 7 [⟨1, 2⟩, ⟨2, 10⟩] constGen "FAC-9-999" dbAB
      = (.insufficientStock "B" 5 10, dbAB, [.lockQuery [1, 2]]) := by
  have h := first_insufficient_line_fails_all 7 [⟨1, 2⟩, ⟨2, 10⟩] constGen "FAC-9-999" dbAB
    [⟨1, 2⟩, ⟨2, 10⟩] 1 ⟨2, 10⟩ (by decide) (by decide) (by decide) (by decide) (by decide)
    (by
      intro j hj itj hitj
      have hj0 : j = 0 := by omega
      subst hj0
      simp only [List.get?] at hitj
      injection hitj with hh
      subst hh
      exact ⟨by decide, by decide⟩)
  exact h.trans (by decide)

/-! ## Claim theorems: per-client purchase visibility -/

/-- A store with purchases of two different users (ids 7 and 8). -/
def dbUsers : DB :=
  ⟨[prodA, prodB],
   [⟨1, 7, 2500, "F1", "completada"⟩, ⟨2, 8, 100, "F2", "completada"⟩], []⟩

/-- C9: a requester with role `cliente` only ever receives their own
purchase rows: any row the by-id fetch returns belongs to them; another
user's purchase is reported not-found; every row of the listing is their
own; and both endpoints' responses are a function of the client's own rows
alone. -/
theorem cliente_sees_only_own_purchases :
    (∀ (uid pid : Int) (db : DB) (q : PurchaseRec),
       getPurchaseById "cliente" uid pid db = some q → q.user_id = uid)
    ∧ (∀ (uid : Int) (db : DB) (p : PurchaseRec),
        p ∈ db.purchases → p.user_id ≠ uid →
        (db.purchases.map (fun r => r.id)).Nodup →
        getPurchaseById "cliente" uid p.id db = none)
    ∧ (∀ (uid : Int) (page limit : Nat) (db : DB) (q : PurchaseRec),
        q ∈ listPurchases "cliente" uid page limit db → q.user_id = uid)
    ∧ (∀ (uid : Int) (page limit : Nat) (db₁ db₂ : DB),
        db₁.purchases.filter (fun p => p.user_id == uid)
          = db₂.purchases.filter (fun p => p.user_id == uid) →
        listPurchases "cliente" uid page limit db₁
          = listPurchases "cliente" uid page limit db₂)
    ∧ (∀ (uid pid : Int) (db₁ db₂ : DB),
        db₁.purchases.filter (fun p => p.user_id == uid)
          = db₂.purchases.filter (fun p => p.user_id == uid) →
        getPurchaseById "cliente" uid pid db₁ = getPurchaseById "cliente" uid pid db₂) := by
  refine ⟨?_, ?_, ?_, ?_, ?_⟩
  · intro uid pid db q h
    simp only [getPurchaseById, if_pos rfl] at h
    have hp := List.find?_some h
    simp only [Bool.and_eq_true, beq_iff_eq] at hp
    exact hp.2
  · intro uid db p hmem hne hnd
    simp only [getPurchaseById, if_pos rfl]
    apply List.find?_eq_none.2
    intro q hq hpred
    simp only [Bool.and_eq_true, beq_iff_eq] at hpred
    have hqp : q = p :=
      eq_of_mem_nodupKeys (fun r => r.id) db.purchases q p hnd hq hmem hpred.1
    rw [hqp] at hpred
    exact hne hpred.2
  · intro uid page limit db q hq
    simp only [listPurchases, if_pos rfl] at hq
    have h2 := List.mem_of_mem_drop (List.mem_of_mem_take hq)
    have h3 := (List.mem_filter.mp h2).2
    simpa using h3
  · intro uid page limit db₁ db₂ h
    simp only [listPurchases, if_pos rfl, h]
    simp
  · intro uid pid db₁ db₂ h
    have key : ∀ (l : List PurchaseRec),
        l.find? (fun p => p.id == pid && p.user_id == uid)
          = (l.filter (fun p => p.user_id == uid)).find? (fun p => p.id == pid) := by
      intro l
      rw [find?_filter_comm]
      exact find?_congr_mem l _ _ (fun a _ => Bool.and_comm ..)
    simp only [getPurchaseById, if_pos rfl]
    rw [key db₁.purchases, key db₂.purchases, h]
    simp

/-- Witness for C9: in a store holding purchases of users 7 and 8, client 7
fetching purchase 2 (owned by 8) gets not-found. -/
theorem cliente_sees_only_own_purchases_witness :
    getPurchaseById "cliente" 7 2 dbUsers = none :=
  cliente_sees_only_own_purchases.2.1 7 dbUsers
    ⟨2, 8, 100, "F2", "completada"⟩ (by decide) (by decide) (by decide)

/-! ## Hook lemmas and the invoice-assignment claim -/

/-- Neither lifecycle hook touches a purchase whose invoice number is
non-empty and not all-whitespace. -/
theorem hooks_preserve_nonblank (fresh : String) (p : PurchaseRec)
    (hne : p.numero_factura ≠ "") (hnb : trimsToEmpty p.numero_factura = false) :
    purchaseBeforeSaveHook fresh (purchaseBeforeCreateHook fresh p) = p := by
  unfold purchaseBeforeCreateHook purchaseBeforeSaveHook
  rw [if_neg hne]
  rw [if_neg]
  intro h
  rcases h with h | h
  · exact hne h
  · rw [hnb] at h
    cases h

/-- For a non-blank candidate, the created header is exactly the record the
coordinator passed to `Purchase.create`. -/
theorem mkPurchaseRec_of_nonblank (hf : String) (pid uid total : Int) (nf : String)
    (hne : nf ≠ "") (hnb : trimsToEmpty nf = false) :
    mkPurchaseRec hf pid uid total nf
      = { id := pid, user_id := uid, total := total, numero_factura := nf,
          estado := "completada" } :=
  hooks_preserve_nonblank hf _ hne hnb

/-- The Sequelize model validations pass whenever the total is at least one
cent and every unit-price snapshot is at least one cent. -/
theorem modelValidationOk_true (hf : String) (pid uid total : Int) (nf : String)
    (ds : List Detalle) (hne : nf ≠ "") (hnb : trimsToEmpty nf = false)
    (htot : 1 ≤ total) (hpre : ∀ d ∈ ds, 1 ≤ d.precio_unitario) :
    modelValidationOk (mkPurchaseRec hf pid uid total nf) ds = true := by
  rw [mkPurchaseRec_of_nonblank hf pid uid total nf hne hnb]
  simp only [modelValidationOk, Bool.and_eq_true, decide_eq_true_eq, List.all_eq_true]
  exact ⟨htot, fun d hd => by simpa using hpre d hd⟩

/-- C5: on the success path the committed invoice number is exactly the
candidate the sequencing loop verified absent from the purchase store; the
header is persisted once with that value; and neither the create- nor the
save-time hook ever regenerates or replaces a non-blank invoice number. -/
theorem invoice_assigned_once_at_commit (uid : Int) (body : List RawItem)
    (gen : Nat → String) (hf : String) (db : DB) (items : List Item) (ds : List Detalle)
    (nf : String) (tried : List String)
    (hv : purchaseSchemaValidate body = some items)
    (hlen : (availableProductsOf db (productIdsOf items)).length = (productIdsOf items).length)
    (hp : priceItems (availableProductsOf db (productIdsOf items)) items = .ok ds)
    (hloop : invoiceLoop gen (invoiceExists db) 0 5 = (some nf, tried))
    (hne : nf ≠ "") (hnb : trimsToEmpty nf = false)
    (htot : 1 ≤ totalOf ds)
    (hpre : ∀ d ∈ ds, 1 ≤ d.precio_unitario) :
    invoiceExists db nf = false
    ∧ (∃ k, k < 5 ∧ nf = gen k)
    ∧ (createPurchase uid body gen hf db).1
        = .success (nextPurchaseId db) nf (totalOf ds)
    ∧ (createPurchase uid body gen hf db).2.1.purchases
        = db.purchases
            ++ [{ id := nextPurchaseId db, user_id := uid, total := totalOf ds,
                  numero_factura := nf, estado := "completada" }]
    ∧ (∀ (fresh : String) (p : PurchaseRec), p.numero_factura ≠ "" →
        trimsToEmpty p.numero_factura = false →
        purchaseBeforeSaveHook fresh (purchaseBeforeCreateHook fresh p) = p) := by
  obtain ⟨hfresh, k, hk, hnfk⟩ := invoiceLoop_some_spec gen (invoiceExists db) 5 0 nf tried hloop
  have hok := modelValidationOk_true hf (nextPurchaseId db) uid (totalOf ds) nf ds hne hnb htot hpre
  have hE := createPurchase_success uid body gen hf db items ds nf tried hv hlen hp hloop hok
  have hmk := mkPurchaseRec_of_nonblank hf (nextPurchaseId db) uid (totalOf ds) nf hne hnb
  refine ⟨hfresh, ⟨k, hk, by simpa using hnfk⟩, ?_, ?_,
    fun fresh p h1 h2 => hooks_preserve_nonblank fresh p h1 h2⟩
  · rw [hE, hmk]
  · rw [hE, hmk]

/-- Witness for C5 at the concrete two-line cart: the committed header
carries exactly the verified candidate FAC-1-000. -/
theorem invoice_assigned_once_at_commit_witness :
    (createPurchase 7 [⟨1, 2⟩, ⟨2, 1⟩] constGen "FAC-9-999" dbAB).2.1.purchases
      = [⟨1, 7, 2500, "FAC-1-000", "completada"⟩] := by
  have h := (invoice_assigned_once_at_commit 7 [⟨1, 2⟩, ⟨2, 1⟩] constGen "FAC-9-999" dbAB
    [⟨1, 2⟩, ⟨2, 1⟩] [⟨1, 2, 1000, 2000, prodA⟩, ⟨2, 1, 500, 500, prodB⟩]
    "FAC-1-000" ["FAC-1-000"]
    (by decide) (by decide) (by rfl) (by rfl) (by decide) (by decide) (by decide)
    (by decide)).2.2.2.1
  exact h.trans (by decide)

/-! ## The stock-decrement claim -/

/-- Searching a key-value projection of a list by key. -/
theorem find?_map_pair {α : Type} (l : List α) (key : α → Int) (val : α → Int) (x : Int) :
    (l.map (fun a => (key a, val a))).find? (fun u => u.1 == x)
      = (l.find? (fun a => key a == x)).map (fun a => (key a, val a)) := by
  induction l with
  | nil => rfl
  | cons a t ih =>
    simp only [List.map, List.find?]
    cases h : key a == x
    · simpa [h] using ih
    · simp [h]

/-- Per-cart-line facts: with duplicate-free store ids, every cart line that
names an active stored product is matched by the pricing loop's lookup to
exactly that product row. -/
theorem lookedUp_facts (db : DB) (items : List Item)
    (hdb : (db.products.map (fun p => p.id)).Nodup)
    (hex : ∀ it ∈ items, ∃ p ∈ db.products, p.id = it.product_id ∧ p.activo = true
             ∧ it.cantidad ≤ p.cantidad_disponible ∧ 1 ≤ p.precio) :
    ∀ it ∈ items,
      ((availableProductsOf db (productIdsOf items)).find?
          (fun q => q.id == it.product_id)).isSome = true
      ∧ lookedUpProduct (availableProductsOf db (productIdsOf items)) it ∈ db.products
      ∧ (lookedUpProduct (availableProductsOf db (productIdsOf items)) it).id
          = it.product_id
      ∧ it.cantidad
          ≤ (lookedUpProduct (availableProductsOf db (productIdsOf items)) it).cantidad_disponible
      ∧ 1 ≤ (lookedUpProduct (availableProductsOf db (productIdsOf items)) it).precio := by
  intro it hit
  obtain ⟨p, hpmem, hpid, hact, hq, hpr⟩ := hex it hit
  have hpavail : p ∈ availableProductsOf db (productIdsOf items) := by
    refine (mem_availableProductsOf db _ p).mpr ⟨hpmem, ?_, hact⟩
    rw [hpid]
    exact List.mem_map_of_mem (fun x => x.product_id) hit
  have hnod := availableProductsOf_nodup_ids db (productIdsOf items) hdb
  have hfind := find?_of_mem_nodupKeys (fun q => q.id)
    (availableProductsOf db (productIdsOf items)) p hnod hpavail
  simp only [] at hfind
  rw [hpid] at hfind
  have hlook : lookedUpProduct (availableProductsOf db (productIdsOf items)) it = p := by
    simp [lookedUpProduct, hfind]
  rw [hlook]
  exact ⟨by rw [hfind]; rfl, hpmem, hpid, hq, hpr⟩

/-- C1: a valid cart (schema-validated, duplicate-free ids) whose every line
requests at most the locked product's available quantity, on a store with
duplicate-free product ids, with positive prices and a fresh first invoice
candidate, makes the purchase succeed; the persisted quantity of every
referenced product is exactly its lock-time quantity minus the requested
amount, and every unreferenced product row is unchanged. -/
theorem purchase_success_decrements_stock (uid : Int) (body : List RawItem)
    (gen : Nat → String) (hf : String) (db : DB) (items : List Item)
    (hv : purchaseSchemaValidate body = some items)
    (hids : (productIdsOf items).Nodup)
    (hdb : (db.products.map (fun p => p.id)).Nodup)
    (hex : ∀ it ∈ items, ∃ p ∈ db.products, p.id = it.product_id ∧ p.activo = true
             ∧ it.cantidad ≤ p.cantidad_disponible ∧ 1 ≤ p.precio)
    (hfree : invoiceExists db (gen 0) = false)
    (hne : gen 0 ≠ "") (hnb : trimsToEmpty (gen 0) = false) :
    ((createPurchase uid body gen hf db).1).isSuccess = true
    ∧ (createPurchase uid body gen hf db).2.1.products
        = db.products.map (fun p =>
            match items.find? (fun it => it.product_id == p.id) with
            | some it => { p with cantidad_disponible := p.cantidad_disponible - it.cantidad }
            | none => p) := by
  have hper := lookedUp_facts db items hdb hex
  have hbounds := validateItems_bounds body items (purchaseSchemaValidate_spec body items hv).1
  have hnil := (purchaseSchemaValidate_spec body items hv).2
  -- the length guard passes
  have hlen : (availableProductsOf db (productIdsOf items)).length
      = (productIdsOf items).length := by
    refine availableProductsOf_length_eq db (productIdsOf items) hids hdb ?_
    intro i hi
    rcases List.mem_map.mp hi with ⟨it, hit, rfl⟩
    obtain ⟨p, hpmem, hpid, hact, _, _⟩ := hex it hit
    exact ⟨p, hpmem, hpid, hact⟩
  -- pricing succeeds
  have hp := priceItems_ok (availableProductsOf db (productIdsOf items)) items
    (fun it h => (hper it h).1)
    (fun it h => not_lt.mpr (hper it h).2.2.2.1)
  -- per-detalle bounds
  have hpre : ∀ d ∈ items.map (detalleOf (availableProductsOf db (productIdsOf items))),
      1 ≤ d.precio_unitario := by
    intro d hd
    rcases List.mem_map.mp hd with ⟨it, hit, rfl⟩
    exact (hper it hit).2.2.2.2
  have hsub1 : ∀ d ∈ items.map (detalleOf (availableProductsOf db (productIdsOf items))),
      1 ≤ d.subtotal := by
    intro d hd
    rcases List.mem_map.mp hd with ⟨it, hit, rfl⟩
    have h1 := (hper it hit).2.2.2.2
    have h2 := (hbounds it hit).2
    have : (1 : Int) * 1 ≤ (lookedUpProduct (availableProductsOf db (productIdsOf items)) it).precio * it.cantidad :=
      mul_le_mul h1 h2 (by norm_num) (le_trans (by norm_num) h1)
    simpa [detalleOf] using this
  have htot : 1 ≤ totalOf (items.map (detalleOf (availableProductsOf db (productIdsOf items)))) := by
    rw [totalOf_eq_sum]
    obtain ⟨it, hit⟩ := List.exists_mem_of_ne_nil items hnil
    have hdmem : (detalleOf (availableProductsOf db (productIdsOf items)) it)
        ∈ items.map (detalleOf (availableProductsOf db (productIdsOf items))) :=
      List.mem_map_of_mem _ hit
    have hsmem : (detalleOf (availableProductsOf db (productIdsOf items)) it).subtotal
        ∈ (items.map (detalleOf (availableProductsOf db (productIdsOf items)))).map
            (fun d => d.subtotal) :=
      List.mem_map_of_mem _ hdmem
    have hle := List.single_le_sum (l := (items.map (detalleOf (availableProductsOf db (productIdsOf items)))).map (fun d => d.subtotal))
      (by
        intro x hx
        rcases List.mem_map.mp hx with ⟨d, hd, rfl⟩
        exact le_trans (by norm_num) (hsub1 d hd)) _ hsmem
    exact le_trans (hsub1 _ hdmem) hle
  -- the invoice loop succeeds on the first draw
  have hloop : invoiceLoop gen (invoiceExists db) 0 5 = (some (gen 0), [gen 0]) := by
    simp only [invoiceLoop]
    rw [hfree, if_neg Bool.false_ne_true]
  have hok := modelValidationOk_true hf (nextPurchaseId db) uid
    (totalOf (items.map (detalleOf (availableProductsOf db (productIdsOf items)))))
    (gen 0) (items.map (detalleOf (availableProductsOf db (productIdsOf items))))
    hne hnb htot hpre
  have hE := createPurchase_success uid body gen hf db items
    (items.map (detalleOf (availableProductsOf db (productIdsOf items))))
    (gen 0) [gen 0] hv hlen hp hloop hok
  constructor
  · rw [hE]
    rfl
  · rw [hE]
    -- the committed products list
    have hups : stockUpdatesOf (items.map (detalleOf (availableProductsOf db (productIdsOf items))))
        = items.map (fun it =>
            ((lookedUpProduct (availableProductsOf db (productIdsOf items)) it).id,
             (lookedUpProduct (availableProductsOf db (productIdsOf items)) it).cantidad_disponible
               - it.cantidad)) := by
      simp only [stockUpdatesOf, List.map_map]
      apply List.map_congr_left
      intro a _
      rfl
    have hkeys : ((items.map (fun it =>
        ((lookedUpProduct (availableProductsOf db (productIdsOf items)) it).id,
         (lookedUpProduct (availableProductsOf db (productIdsOf items)) it).cantidad_disponible
           - it.cantidad))).map Prod.fst).Nodup := by
      rw [List.map_map]
      have : items.map (Prod.fst ∘ (fun it =>
          ((lookedUpProduct (availableProductsOf db (productIdsOf items)) it).id,
           (lookedUpProduct (availableProductsOf db (productIdsOf items)) it).cantidad_disponible
             - it.cantidad)))
          = items.map (fun it => it.product_id) := by
        apply List.map_congr_left
        intro it hit
        simpa using (hper it hit).2.2.1
      rw [this]
      exact hids
    rw [hups, applyStockUpdates_eq _ db.products hkeys]
    apply List.map_congr_left
    intro p hpmem
    rw [find?_map_pair items
      (fun a => (lookedUpProduct (availableProductsOf db (productIdsOf items)) a).id)
      (fun a => (lookedUpProduct (availableProductsOf db (productIdsOf items)) a).cantidad_disponible
        - a.cantidad) p.id]
    have hcong : items.find? (fun a =>
        (lookedUpProduct (availableProductsOf db (productIdsOf items)) a).id == p.id)
        = items.find? (fun it => it.product_id == p.id) := by
      apply find?_congr_mem
      intro it hit
      rw [(hper it hit).2.2.1]
    rw [hcong]
    cases hfind : items.find? (fun it => it.product_id == p.id) with
    | none => rfl
    | some it =>
      have hit : it ∈ items := List.mem_of_find?_eq_some hfind
      have hkey : it.product_id = p.id := by
        have := List.find?_some hfind
        exact (beq_iff_eq ..).mp this
      have hlp : lookedUpProduct (availableProductsOf db (productIdsOf items)) it = p := by
        refine eq_of_mem_nodupKeys (fun q => q.id) db.products _ p hdb
          (hper it hit).2.1 hpmem ?_
        show (lookedUpProduct (availableProductsOf db (productIdsOf items)) it).id = p.id
        rw [(hper it hit).2.2.1, hkey]
      simp only [Option.map_some']
      rw [hlp]

/-- Witness for C1 at the spec's example scenario: cart (A,2),(B,1) against
stocks 5 and 5 succeeds and leaves stocks 3 and 4. -/
theorem purchase_success_decrements_stock_witness :
    ((createPurchase 7 [⟨1, 2⟩, ⟨2, 1⟩] constGen "FAC-9-999" dbAB).1).isSuccess = true
    ∧ (createPurchase 7 [⟨1, 2⟩, ⟨2, 1⟩] constGen "FAC-9-999" dbAB).2.1.products
        = [⟨1, "L-001", "A", 1000, 3, true⟩, ⟨2, "L-002", "B", 500, 4, true⟩] := by
  have h := purchase_success_decrements_stock 7 [⟨1, 2⟩, ⟨2, 1⟩] constGen "FAC-9-999" dbAB
    [⟨1, 2⟩, ⟨2, 1⟩] (by decide) (by decide) (by decide) (by decide) (by decide) (by decide)
    (by decide)
  exact ⟨h.1, h.2.trans (by decide)⟩
